import Mathlib

/-
A shallow embedding of the AlturaTime backend (server.py): an
identifier-keyed artifact store behind a thin upload/lookup gateway.

The server persists each upload as two files inside one upload
directory: `{id}.ics` holding the raw payload bytes and `{id}.json`
holding a small metadata record.  We model the upload directory as an
association list from file names to file contents, the upload handler
`upload_schedule` as a state-passing function, and the lookup handlers
`get_ics` / `get_meta` as lookups returning `Option` (`none` models the
HTTP 404 from `abort(404)`).

Python primitives used by the source (`os.path.splitext`, `str.lower`,
`str.strip`, `str.rstrip`, `werkzeug.utils.secure_filename`) are
translated for ASCII input on a POSIX system (the deployment target of
the source: `os.sep` is the slash, `os.path.altsep` is `None`).

Fallibility of the two disk writes (`uploaded.save` and the
`json.dump` of the metadata) is modelled by two oracle booleans
`saveOk` / `metaOk`: `false` means the corresponding write raises.  In
the source the payload write is wrapped in `try/except` and answered
with a JSON 500, while the metadata write is not wrapped, so its
exception escapes the handler and Flask turns it into a generic 500;
the two outcomes are the distinct constructors `saveFailed` and
`unhandledError` below.
-/

namespace Altura

/-! ### Python string primitives -/

/-- Whitespace for `str.split()` / `str.strip()` (ASCII fragment of
Python's whitespace set). -/
def isPySpace (c : Char) : Bool :=
  c = ' ' || c = '\t' || c = '\n' || c = '\r' || c = Char.ofNat 11 || c = Char.ofNat 12

/-- Python `str.strip()` (no argument): drop leading and trailing
whitespace. -/
def pyStrip (s : String) : String :=
  ⟨((s.data.dropWhile isPySpace).reverse.dropWhile isPySpace).reverse⟩

/-- Python `str.lower()` on ASCII input. -/
def lowerAscii (s : String) : String :=
  ⟨s.data.map Char.toLower⟩

/-- Python `str.rstrip("/")`, as used on `request.url_root`. -/
def rstripSlash (s : String) : String :=
  ⟨(s.data.reverse.dropWhile (fun c => c = '/')).reverse⟩

/-- The part of a path after its last slash (the whole path when it has
no slash); `os.path.altsep` is `None` on POSIX. -/
def afterLastSlash (l : List Char) : List Char :=
  (l.reverse.takeWhile (fun c => c ≠ '/')).reverse

/-- The extension component `os.path.splitext(p)[1]` of POSIX
`os.path.splitext`: the suffix of the base name starting at its last
dot, except that the dots leading a hidden-file name do not start an
extension. -/
def pySplitextExt (p : String) : String :=
  let base := afterLastSlash p.data
  let revTail := base.reverse.takeWhile (fun c => c ≠ '.')
  if revTail.length = base.length then ""
  else
    let stem := base.take (base.length - revTail.length - 1)
    if stem.any (fun c => c ≠ '.') then ⟨'.' :: revTail.reverse⟩ else ""

/-- Split a character list on runs of whitespace, discarding empty
pieces, as Python `str.split()` does; `acc` holds the current piece
reversed. -/
def splitWsAux : List Char → List Char → List (List Char)
  | [], acc => if acc = [] then [] else [acc.reverse]
  | c :: cs, acc =>
    if isPySpace c then
      (if acc = [] then splitWsAux cs [] else acc.reverse :: splitWsAux cs [])
    else splitWsAux cs (c :: acc)

/-- `werkzeug.utils.secure_filename` for ASCII input on POSIX: drop
non-ASCII (the `NFKD`-normalize / ascii-encode step is the identity on
ASCII and drops the rest), replace `os.sep` by a space, join the
whitespace-split pieces with underscores, erase characters outside
`A-Za-z0-9_.-`, and strip leading/trailing dots and underscores.  The
Windows device-name special case does not apply on POSIX. -/
def secure_filename (filename : String) : String :=
  let ascii := filename.data.filter (fun c => c.val < 128)
  let replaced := ascii.map (fun c => if c = '/' then ' ' else c)
  let joined := List.intercalate ['_'] (splitWsAux replaced [])
  let kept := joined.filter (fun c => c.isAlphanum || c = '_' || c = '.' || c = '-')
  ⟨((kept.dropWhile (fun c => c = '.' || c = '_')).reverse.dropWhile
      (fun c => c = '.' || c = '_')).reverse⟩

/-! ### Configuration (server.py lines 10-12, 17) -/

/-- `MAX_BYTES = 2 * 1024 * 1024`, also installed as Flask's
`MAX_CONTENT_LENGTH`. -/
def MAX_BYTES : Nat := 2 * 1024 * 1024

/-- `ALLOWED_EXT = {".ics"}`. -/
def ALLOWED_EXT : List String := [".ics"]

/-- `allowed_filename`: `os.path.splitext(filename)[1].lower() in ALLOWED_EXT`. -/
def allowed_filename (filename : String) : Bool :=
  ALLOWED_EXT.contains (lowerAscii (pySplitextExt filename))

/-! ### Data model: the upload directory -/

/-- The metadata dictionary written by `upload_schedule`:
`{"id": file_id, "name": ..., "orig_name": safe_orig}`. -/
structure MetaRecord where
  id : String
  name : String
  orig_name : String
deriving DecidableEq, Repr

/-- Contents of one file in the upload directory: either a raw payload
(`{id}.ics`) or a serialized metadata record (`{id}.json`). -/
inductive FileContent where
  | ics (bytes : List Nat)
  | json (meta : MetaRecord)
deriving DecidableEq, Repr

/-- The upload directory: file name (relative to `UPLOAD_DIR`) to file
contents, most recent write first. -/
abbrev FS := List (String × FileContent)

/-- Read a file: `none` models a failing `os.path.exists` check. -/
def fsGet : FS → String → Option FileContent
  | [], _ => none
  | (k, v) :: fs, key => if key = k then some v else fsGet fs key

/-- Write a file, replacing any previous contents at that name (Python
`open(path, "w")` / `uploaded.save(path)` overwrite). -/
def fsPut (fs : FS) (k : String) (v : FileContent) : FS :=
  (k, v) :: fs

/-! ### Handlers -/

/-- Outcome of one upload request, one constructor per exit path of the
source. -/
inductive UploadResult where
  /-- 400 `{"success": false, "error": "No file provided"}`. -/
  | noFile
  /-- 400 `{"success": false, "error": "No filename"}`. -/
  | noFilename
  /-- 400 `{"success": false, "error": "Only .ics files allowed"}`. -/
  | badExt
  /-- 500 `{"success": false, "error": "Failed to save: ..."}` — the
  `except` branch around `uploaded.save`. -/
  | saveFailed
  /-- An exception escaping the handler (the metadata write is not
  wrapped in `try`), surfaced by Flask as a generic 500. -/
  | unhandledError
  /-- 413 `RequestEntityTooLarge`, raised by the framework when the
  request exceeds `MAX_CONTENT_LENGTH`. -/
  | tooLarge
  /-- 200 `{"success": true, "id": ..., "name": ..., "link": ...}`. -/
  | ok (id name link : String)
deriving DecidableEq, Repr

/-- The body of `upload_schedule` (server.py lines 27-60).  `file?`
models `request.files["file"]` (name and bytes) when the `file` field
is present; `nameField` models `request.form.get("name")`; `base`
models `request.url_root`; `freshId` models the `uuid.uuid4().hex`
drawn for this request; `saveOk` / `metaOk` model whether the two disk
writes succeed. -/
def upload_schedule (fs : FS) (file? : Option (String × List Nat))
    (nameField : Option String) (base : String) (freshId : String)
    (saveOk metaOk : Bool) : FS × UploadResult :=
  match file? with
  | none => (fs, .noFile)
  | some (filename, bytes) =>
    let name := pyStrip (nameField.getD "")
    if filename = "" then (fs, .noFilename)
    else if allowed_filename filename = false then (fs, .badExt)
    else
      let file_id := freshId
      let safe_orig := secure_filename filename
      let path := file_id ++ ".ics"
      if saveOk then
        let fs1 := fsPut fs path (.ics bytes)
        if metaOk then
          let displayName := if name = "" then "Unnamed Student" else name
          let meta : MetaRecord := ⟨file_id, displayName, safe_orig⟩
          let fs2 := fsPut fs1 (file_id ++ ".json") (.json meta)
          let link := rstripSlash base ++ "/s/" ++ file_id
          (fs2, .ok file_id displayName link)
        else (fs1, .unhandledError)
      else (fs, .saveFailed)

/-- One upload request end to end: Flask enforces
`MAX_CONTENT_LENGTH = MAX_BYTES` before the handler body runs
(`RequestEntityTooLarge`, HTTP 413).  The request size is modelled as
the payload size. -/
def handle_upload (fs : FS) (file? : Option (String × List Nat))
    (nameField : Option String) (base : String) (freshId : String)
    (saveOk metaOk : Bool) : FS × UploadResult :=
  let size := match file? with | none => 0 | some (_, bytes) => bytes.length
  if MAX_BYTES < size then (fs, .tooLarge)
  else upload_schedule fs file? nameField base freshId saveOk metaOk

/-- `get_ics` (server.py lines 62-68): serve `UPLOAD_DIR/{file_id}.ics`,
`none` modelling `abort(404)`. -/
def get_ics (fs : FS) (file_id : String) : Option FileContent :=
  fsGet fs (file_id ++ ".ics")

/-- `get_meta` (server.py lines 70-76): serve `UPLOAD_DIR/{file_id}.json`,
`none` modelling `abort(404)`. -/
def get_meta (fs : FS) (file_id : String) : Option FileContent :=
  fsGet fs (file_id ++ ".json")

/-! ### Traces of upload requests

To state reachability properties we record, alongside the upload
directory, which ids were returned to callers by successful uploads and
which ids were ever drawn from `uuid.uuid4()` (the id is drawn exactly
when control passes the validation checks, whether or not the writes
then succeed). -/

/-- Did this request reach the `uuid.uuid4()` call?  Exactly the
outcomes downstream of the three validation checks and the framework
size gate. -/
def consumesId : UploadResult → Bool
  | .saveFailed => true
  | .unhandledError => true
  | .ok _ _ _ => true
  | _ => false

/-- Ids returned to callers after this request. -/
def retAfter : UploadResult → List String → List String
  | .ok i _ _, r => i :: r
  | _, r => r

/-- Ids ever drawn from the id generator after this request. -/
def genAfter (res : UploadResult) (freshId : String) (gen : List String) : List String :=
  if consumesId res then freshId :: gen else gen

/-- States `(fs, returned, generated)` reachable from an empty upload
directory by any sequence of upload requests, each with arbitrary
inputs, arbitrary generated id and arbitrary write-failure behaviour
(in particular an upload interrupted between its payload write and its
metadata write, `saveOk = true` / `metaOk = false`). -/
inductive Reach : FS → List String → List String → Prop
  | init : Reach [] [] []
  | step {fs ret gen} (file? : Option (String × List Nat))
      (nameField : Option String) (base freshId : String) (saveOk metaOk : Bool) :
      Reach fs ret gen →
      Reach (handle_upload fs file? nameField base freshId saveOk metaOk).1
        (retAfter (handle_upload fs file? nameField base freshId saveOk metaOk).2 ret)
        (genAfter (handle_upload fs file? nameField base freshId saveOk metaOk).2 freshId gen)

/-! ### Helper lemmas: strings and store lookups -/

theorem string_data_append (s t : String) : (s ++ t).data = s.data ++ t.data := by
  cases s; cases t; rfl

theorem string_append_right_cancel {s t u : String} (h : s ++ u = t ++ u) : s = t := by
  cases s with
  | mk ls =>
    cases t with
    | mk lt =>
      cases u with
      | mk lu =>
        have hd : ls ++ lu = lt ++ lu := congrArg String.data h
        exact congrArg String.mk (List.append_cancel_right hd)

theorem last_of_append_singleton (l : List Char) (a : Char) :
    (l ++ [a]).getLast? = some a := by
  induction l with
  | nil => rfl
  | cons c cs ih =>
    rw [List.cons_append, List.getLast?_cons]
    simp [ih]

theorem ics_key_ne_json_key (s t : String) : s ++ ".ics" ≠ t ++ ".json" := by
  intro h
  have hd : s.data ++ ".ics".data = t.data ++ ".json".data := by
    rw [← string_data_append, ← string_data_append, h]
  have e1 : s.data ++ ".ics".data = (s.data ++ ['.', 'i', 'c']) ++ ['s'] := by
    simp [List.append_assoc]
  have e2 : t.data ++ ".json".data = (t.data ++ ['.', 'j', 's', 'o']) ++ ['n'] := by
    simp [List.append_assoc]
  have : some 's' = some 'n' := by
    rw [← last_of_append_singleton (s.data ++ ['.', 'i', 'c']) 's',
      ← last_of_append_singleton (t.data ++ ['.', 'j', 's', 'o']) 'n', ← e1, ← e2, hd]
  simp at this

theorem json_key_ne_ics_key (s t : String) : s ++ ".json" ≠ t ++ ".ics" :=
  fun h => ics_key_ne_json_key t s h.symm

theorem ics_key_inj {s t : String} (h : s ++ ".ics" = t ++ ".ics") : s = t :=
  string_append_right_cancel h

theorem json_key_inj {s t : String} (h : s ++ ".json" = t ++ ".json") : s = t :=
  string_append_right_cancel h

theorem fsGet_fsPut_self (fs : FS) (k : String) (v : FileContent) :
    fsGet (fsPut fs k v) k = some v := by
  simp [fsGet, fsPut]

theorem fsGet_fsPut_other (fs : FS) (k key : String) (v : FileContent)
    (h : key ≠ k) : fsGet (fsPut fs k v) key = fsGet fs key := by
  simp [fsGet, fsPut, h]

theorem fsGet_fsPut_isSome {fs : FS} {key : String} (k : String) (v : FileContent)
    (h : (fsGet fs key).isSome = true) :
    (fsGet (fsPut fs k v) key).isSome = true := by
  by_cases hk : key = k
  · subst hk; simp [fsGet_fsPut_self]
  · rw [fsGet_fsPut_other fs k key v hk]; exact h

/-! ### Helper lemmas: outcome equations for the handlers -/

/-- The display name `upload_schedule` records for a given `name` form
field: the stripped name, or the placeholder when that is empty
(`name or "Unnamed Student"`). -/
def dnOf (nameField : Option String) : String :=
  if pyStrip (nameField.getD "") = "" then "Unnamed Student" else pyStrip (nameField.getD "")

theorem upload_schedule_none (fs : FS) (nm : Option String) (base fid : String)
    (sk mk : Bool) : upload_schedule fs none nm base fid sk mk = (fs, .noFile) := rfl

theorem upload_schedule_noFilename (fs : FS) (b : List Nat) (nm : Option String)
    (base fid : String) (sk mk : Bool) :
    upload_schedule fs (some ("", b)) nm base fid sk mk = (fs, .noFilename) := by
  simp [upload_schedule]

theorem upload_schedule_badExt {fn : String} (fs : FS) (b : List Nat)
    (nm : Option String) (base fid : String) (sk mk : Bool)
    (hfn : fn ≠ "") (hext : allowed_filename fn = false) :
    upload_schedule fs (some (fn, b)) nm base fid sk mk = (fs, .badExt) := by
  simp [upload_schedule, hfn, hext]

theorem upload_schedule_saveFailed {fn : String} (fs : FS) (b : List Nat)
    (nm : Option String) (base fid : String) (mk : Bool)
    (hfn : fn ≠ "") (hext : allowed_filename fn = true) :
    upload_schedule fs (some (fn, b)) nm base fid false mk = (fs, .saveFailed) := by
  simp [upload_schedule, hfn, hext]

theorem upload_schedule_metaFailed {fn : String} (fs : FS) (b : List Nat)
    (nm : Option String) (base fid : String)
    (hfn : fn ≠ "") (hext : allowed_filename fn = true) :
    upload_schedule fs (some (fn, b)) nm base fid true false
      = (fsPut fs (fid ++ ".ics") (.ics b), .unhandledError) := by
  simp [upload_schedule, hfn, hext, fsPut]

theorem upload_schedule_success {fn : String} (fs : FS) (b : List Nat)
    (nm : Option String) (base fid : String)
    (hfn : fn ≠ "") (hext : allowed_filename fn = true) :
    upload_schedule fs (some (fn, b)) nm base fid true true
      = (fsPut (fsPut fs (fid ++ ".ics") (.ics b)) (fid ++ ".json")
           (.json ⟨fid, dnOf nm, secure_filename fn⟩),
         .ok fid (dnOf nm) (rstripSlash base ++ "/s/" ++ fid)) := by
  simp only [upload_schedule, fsPut, dnOf]
  rw [if_neg hfn]
  simp [hext]

theorem handle_upload_tooLarge {fn : String} {b : List Nat} (fs : FS)
    (nm : Option String) (base fid : String) (sk mk : Bool)
    (hsz : MAX_BYTES < b.length) :
    handle_upload fs (some (fn, b)) nm base fid sk mk = (fs, .tooLarge) := by
  simp [handle_upload, hsz]

theorem handle_upload_sizeOk {b : List Nat} (fs : FS) (file? : Option (String × List Nat))
    (nm : Option String) (base fid : String) (sk mk : Bool)
    (hb : file? = none ∨ ∃ fn, file? = some (fn, b) ∧ b.length ≤ MAX_BYTES) :
    handle_upload fs file? nm base fid sk mk
      = upload_schedule fs file? nm base fid sk mk := by
  rcases hb with h | ⟨fn, hf, hsz⟩
  · subst h; simp [handle_upload, MAX_BYTES]
  · subst hf; simp [handle_upload, Nat.not_lt.mpr hsz]

/-- A successful `handle_upload` with valid inputs, fully evaluated. -/
theorem handle_upload_success {fn : String} (fs : FS) (b : List Nat)
    (nm : Option String) (base fid : String)
    (hfn : fn ≠ "") (hext : allowed_filename fn = true) (hsz : b.length ≤ MAX_BYTES) :
    handle_upload fs (some (fn, b)) nm base fid true true
      = (fsPut (fsPut fs (fid ++ ".ics") (.ics b)) (fid ++ ".json")
           (.json ⟨fid, dnOf nm, secure_filename fn⟩),
         .ok fid (dnOf nm) (rstripSlash base ++ "/s/" ++ fid)) := by
  rw [handle_upload_sizeOk fs _ nm base fid true true (Or.inr ⟨fn, rfl, hsz⟩)]
  exact upload_schedule_success fs b nm base fid hfn hext

/-- Every upload request either leaves the directory unchanged, or adds
the payload file for its generated id, or adds the payload file and
then the metadata file for its generated id; and the outcome
constructor determines which. -/
theorem handle_upload_shape (fs : FS) (file? : Option (String × List Nat))
    (nm : Option String) (base fid : String) (sk mk : Bool) :
    (let out := handle_upload fs file? nm base fid sk mk
     (out.1 = fs ∧ consumesId out.2 = false ∧ ∀ r, retAfter out.2 r = r)
     ∨ (out.1 = fs ∧ out.2 = .saveFailed)
     ∨ (∃ b, out.1 = fsPut fs (fid ++ ".ics") (.ics b) ∧ out.2 = .unhandledError)
     ∨ (∃ b m dn l, m.id = fid ∧
         out.1 = fsPut (fsPut fs (fid ++ ".ics") (.ics b)) (fid ++ ".json") (.json m)
         ∧ out.2 = .ok fid dn l)) := by
  rcases file? with _ | ⟨fn, b⟩
  · rw [@handle_upload_sizeOk [] fs none nm base fid sk mk (Or.inl rfl),
      upload_schedule_none fs nm base fid sk mk]
    exact Or.inl ⟨rfl, rfl, fun r => rfl⟩
  · by_cases hsz : MAX_BYTES < b.length
    · rw [handle_upload_tooLarge fs nm base fid sk mk hsz]
      exact Or.inl ⟨rfl, rfl, fun r => rfl⟩
    · rw [handle_upload_sizeOk fs _ nm base fid sk mk
        (Or.inr ⟨fn, rfl, Nat.not_lt.mp hsz⟩)]
      by_cases hfn : fn = ""
      · subst hfn
        rw [upload_schedule_noFilename fs b nm base fid sk mk]
        exact Or.inl ⟨rfl, rfl, fun r => rfl⟩
      · by_cases hext : allowed_filename fn = true
        · cases sk with
          | false =>
            rw [upload_schedule_saveFailed fs b nm base fid mk hfn hext]
            exact Or.inr (Or.inl ⟨rfl, rfl⟩)
          | true =>
            cases mk with
            | false =>
              rw [upload_schedule_metaFailed fs b nm base fid hfn hext]
              exact Or.inr (Or.inr (Or.inl ⟨b, rfl, rfl⟩))
            | true =>
              rw [upload_schedule_success fs b nm base fid hfn hext]
              exact Or.inr (Or.inr (Or.inr
                ⟨b, ⟨fid, dnOf nm, secure_filename fn⟩, dnOf nm,
                  rstripSlash base ++ "/s/" ++ fid, rfl, rfl, rfl⟩))
        · rw [upload_schedule_badExt fs b nm base fid sk mk hfn
            (Bool.not_eq_true _ ▸ hext)]
          exact Or.inl ⟨rfl, rfl, fun r => rfl⟩

/-! ### The trace invariant -/

/-- The invariant tying a reachable upload directory to its trace:
every retrievable payload sits under an id that was drawn from the id
generator, every retrievable metadata record sits under an id that was
returned by a successful upload, and a retrievable metadata record
implies a retrievable payload for the same id. -/
def TraceInv (fs : FS) (ret gen : List String) : Prop :=
  ∀ id : String,
    ((get_ics fs id).isSome = true → id ∈ gen)
    ∧ ((get_meta fs id).isSome = true → id ∈ ret)
    ∧ ((get_meta fs id).isSome = true → (get_ics fs id).isSome = true)

theorem traceInv_step (fs : FS) (ret gen : List String)
    (file? : Option (String × List Nat)) (nm : Option String) (base fid : String)
    (sk mk : Bool) (h : TraceInv fs ret gen) :
    TraceInv (handle_upload fs file? nm base fid sk mk).1
      (retAfter (handle_upload fs file? nm base fid sk mk).2 ret)
      (genAfter (handle_upload fs file? nm base fid sk mk).2 fid gen) := by
  rcases handle_upload_shape fs file? nm base fid sk mk with
    ⟨hfs, hci, hret⟩ | ⟨hfs, hres⟩ | ⟨b, hfs, hres⟩ | ⟨b, m, dn, l, hmid, hfs, hres⟩
  · rw [hfs, hret ret]
    unfold genAfter
    rw [hci]
    exact h
  · rw [hfs, hres]
    intro id
    exact ⟨fun hi => List.mem_cons_of_mem fid ((h id).1 hi), (h id).2.1, (h id).2.2⟩
  · rw [hfs, hres]
    intro id
    refine ⟨?_, ?_, ?_⟩
    · intro hi
      by_cases hid : id = fid
      · exact hid ▸ List.mem_cons_self fid gen
      · rw [show get_ics (fsPut fs (fid ++ ".ics") (.ics b)) id
              = get_ics fs id from
            fsGet_fsPut_other fs (fid ++ ".ics") (id ++ ".ics") (.ics b)
              (fun he => hid (ics_key_inj he))] at hi
        exact List.mem_cons_of_mem fid ((h id).1 hi)
    · intro hm
      rw [show get_meta (fsPut fs (fid ++ ".ics") (.ics b)) id = get_meta fs id from
          fsGet_fsPut_other fs (fid ++ ".ics") (id ++ ".json") (.ics b)
            (json_key_ne_ics_key id fid)] at hm
      exact (h id).2.1 hm
    · intro hm
      rw [show get_meta (fsPut fs (fid ++ ".ics") (.ics b)) id = get_meta fs id from
          fsGet_fsPut_other fs (fid ++ ".ics") (id ++ ".json") (.ics b)
            (json_key_ne_ics_key id fid)] at hm
      exact fsGet_fsPut_isSome (fid ++ ".ics") (.ics b) ((h id).2.2 hm)
  · rw [hfs, hres]
    intro id
    have hics_of_ne : ∀ hid : id ≠ fid,
        get_ics (fsPut (fsPut fs (fid ++ ".ics") (.ics b)) (fid ++ ".json") (.json m)) id
          = get_ics fs id := by
      intro hid
      rw [show get_ics (fsPut (fsPut fs (fid ++ ".ics") (.ics b)) (fid ++ ".json")
              (.json m)) id
            = get_ics (fsPut fs (fid ++ ".ics") (.ics b)) id from
          fsGet_fsPut_other _ (fid ++ ".json") (id ++ ".ics") (.json m)
            (ics_key_ne_json_key id fid)]
      exact fsGet_fsPut_other fs (fid ++ ".ics") (id ++ ".ics") (.ics b)
        (fun he => hid (ics_key_inj he))
    have hmeta_of_ne : ∀ hid : id ≠ fid,
        get_meta (fsPut (fsPut fs (fid ++ ".ics") (.ics b)) (fid ++ ".json") (.json m)) id
          = get_meta fs id := by
      intro hid
      rw [show get_meta (fsPut (fsPut fs (fid ++ ".ics") (.ics b)) (fid ++ ".json")
              (.json m)) id
            = get_meta (fsPut fs (fid ++ ".ics") (.ics b)) id from
          fsGet_fsPut_other _ (fid ++ ".json") (id ++ ".json") (.json m)
            (fun he => hid (json_key_inj he))]
      exact fsGet_fsPut_other fs (fid ++ ".ics") (id ++ ".json") (.ics b)
        (json_key_ne_ics_key id fid)
    have hics_fid :
        (get_ics (fsPut (fsPut fs (fid ++ ".ics") (.ics b)) (fid ++ ".json")
          (.json m)) fid).isSome = true := by
      rw [show get_ics (fsPut (fsPut fs (fid ++ ".ics") (.ics b)) (fid ++ ".json")
              (.json m)) fid
            = get_ics (fsPut fs (fid ++ ".ics") (.ics b)) fid from
          fsGet_fsPut_other _ (fid ++ ".json") (fid ++ ".ics") (.json m)
            (ics_key_ne_json_key fid fid)]
      unfold get_ics
      rw [fsGet_fsPut_self]
      rfl
    refine ⟨?_, ?_, ?_⟩
    · intro hi
      by_cases hid : id = fid
      · exact hid ▸ List.mem_cons_self fid gen
      · rw [hics_of_ne hid] at hi
        exact List.mem_cons_of_mem fid ((h id).1 hi)
    · intro hm
      by_cases hid : id = fid
      · exact hid ▸ List.mem_cons_self fid ret
      · rw [hmeta_of_ne hid] at hm
        exact List.mem_cons_of_mem fid ((h id).2.1 hm)
    · intro hm
      by_cases hid : id = fid
      · exact hid ▸ hics_fid
      · rw [hmeta_of_ne hid] at hm
        rw [hics_of_ne hid]
        exact (h id).2.2 hm

/-- Every reachable state satisfies the trace invariant. -/
theorem reach_traceInv {fs : FS} {ret gen : List String}
    (h : Reach fs ret gen) : TraceInv fs ret gen := by
  induction h with
  | init => intro id; exact ⟨by simp [get_ics, fsGet], by simp [get_meta, fsGet],
      by simp [get_meta, fsGet]⟩
  | step file? nm base fid sk mk _ ih =>
    exact traceInv_step _ _ _ file? nm base fid sk mk ih

/-! ### The claims -/

/-- C1: for every valid upload accepted by the gateway (payload
present, non-empty filename with allowed extension, size within the
ceiling) whose writes succeed, `upload_schedule` answers success with
the generated id, and `get_ics` on that id returns exactly the uploaded
bytes, unmodified. -/
theorem C1_roundtrip (fs : FS) (fn : String) (b : List Nat) (nm : Option String)
    (base fid : String) (hfn : fn ≠ "") (hext : allowed_filename fn = true)
    (hsz : b.length ≤ MAX_BYTES) :
    ∃ fs' dn link,
      handle_upload fs (some (fn, b)) nm base fid true true = (fs', .ok fid dn link)
      ∧ get_ics fs' fid = some (.ics b) := by
  refine ⟨_, _, _, handle_upload_success fs b nm base fid hfn hext hsz, ?_⟩
  unfold get_ics
  rw [fsGet_fsPut_other _ (fid ++ ".json") (fid ++ ".ics") _ (ics_key_ne_json_key fid fid)]
  exact fsGet_fsPut_self _ _ _

/-- Witness for C1 at a concrete upload. -/
theorem C1_roundtrip_witness :
    ∃ fs' dn link,
      handle_upload [] (some ("alice.ics", [1, 2, 3])) (some "Alice") "http://h/"
        "ab12" true true = (fs', .ok "ab12" dn link)
      ∧ get_ics fs' "ab12" = some (.ics [1, 2, 3]) :=
  C1_roundtrip [] "alice.ics" [1, 2, 3] (some "Alice") "http://h/" "ab12"
    (by decide) (by decide) (by decide)

/-- C2: in every state reachable by any sequence of uploads — including
uploads interrupted between the payload write and the metadata write
(`saveOk = true`, `metaOk = false`) — every id with a retrievable
metadata record also has a retrievable payload, because the payload is
written before the record; and whenever an upload returns success, both
the payload and the record of the returned id are retrievable. -/
theorem C2_record_implies_artifact :
    (∀ (fs : FS) (ret gen : List String), Reach fs ret gen →
      ∀ id, (get_meta fs id).isSome = true → (get_ics fs id).isSome = true)
    ∧ (∀ (fs : FS) (file? : Option (String × List Nat)) (nm : Option String)
        (base fid : String) (sk mk : Bool) (fs' : FS) (rid dn link : String),
        handle_upload fs file? nm base fid sk mk = (fs', .ok rid dn link) →
        (get_ics fs' rid).isSome = true ∧ (get_meta fs' rid).isSome = true) := by
  constructor
  · intro fs ret gen hr id
    exact (reach_traceInv hr id).2.2
  · intro fs file? nm base fid sk mk fs' rid dn link h
    have h1 : (handle_upload fs file? nm base fid sk mk).1 = fs' := congrArg Prod.fst h
    have h2 : (handle_upload fs file? nm base fid sk mk).2 = .ok rid dn link :=
      congrArg Prod.snd h
    rcases handle_upload_shape fs file? nm base fid sk mk with
      ⟨_, hci, _⟩ | ⟨_, hres⟩ | ⟨b, _, hres⟩ | ⟨b, m, dn', l', hmid, hfs, hres⟩
    · rw [h2] at hci
      simp [consumesId] at hci
    · rw [h2] at hres
      simp at hres
    · rw [h2] at hres
      simp at hres
    · rw [h2] at hres
      have hrid : rid = fid := (UploadResult.ok.injEq _ _ _ _ _ _ ▸ hres).1
      rw [← h1, hfs, hrid]
      constructor
      · have : get_ics (fsPut (fsPut fs (fid ++ ".ics") (.ics b)) (fid ++ ".json")
            (.json m)) fid = some (.ics b) := by
          unfold get_ics
          rw [fsGet_fsPut_other _ (fid ++ ".json") (fid ++ ".ics") _
            (ics_key_ne_json_key fid fid)]
          exact fsGet_fsPut_self _ _ _
        rw [this]; rfl
      · have : get_meta (fsPut (fsPut fs (fid ++ ".ics") (.ics b)) (fid ++ ".json")
            (.json m)) fid = some (.json m) := fsGet_fsPut_self _ _ _
        rw [this]; rfl

/-- Witness for C2 at a concrete successful upload. -/
theorem C2_record_implies_artifact_witness :
    (get_ics [(("ab.json" : String), FileContent.json ⟨"ab", "Unnamed Student", "a.ics"⟩),
      ("ab.ics", FileContent.ics [9])] "ab").isSome = true
    ∧ (get_meta [(("ab.json" : String), FileContent.json ⟨"ab", "Unnamed Student", "a.ics"⟩),
      ("ab.ics", FileContent.ics [9])] "ab").isSome = true :=
  C2_record_implies_artifact.2 [] (some ("a.ics", [9])) none "" "ab" true true
    [("ab.json", FileContent.json ⟨"ab", "Unnamed Student", "a.ics"⟩),
      ("ab.ics", FileContent.ics [9])] "ab" "Unnamed Student" "/s/ab" (by decide)

/-- C5 is false as stated: an upload interrupted between its payload
write and its metadata write (the metadata `json.dump` raises) leaves
the payload retrievable under an id that was never returned by any
successful upload.  The state below is reached by one such upload with
generated id `"dead"`; no upload ever returned an id, yet
`get_ics "dead"` serves the orphaned payload instead of failing with
404. -/
theorem C5_counterexample :
    Reach [("dead.ics", FileContent.ics [1, 2])] [] ["dead"]
    ∧ "dead" ∉ ([] : List String)
    ∧ get_ics [("dead.ics", FileContent.ics [1, 2])] "dead" = some (.ics [1, 2]) := by
  refine ⟨?_, by simp, by decide⟩
  have h := Reach.step (some ("a.ics", [1, 2])) none "" "dead" true false Reach.init
  have e1 : (handle_upload [] (some ("a.ics", [1, 2])) none "" "dead" true false).1
      = [("dead.ics", FileContent.ics [1, 2])] := by decide
  have e2 : retAfter (handle_upload [] (some ("a.ics", [1, 2])) none "" "dead"
      true false).2 [] = [] := by decide
  have e3 : genAfter (handle_upload [] (some ("a.ics", [1, 2])) none "" "dead"
      true false).2 "dead" [] = ["dead"] := by decide
  rw [e1, e2, e3] at h
  exact h

/-- C5 amended: in every reachable state, `get_meta` fails with 404 on
every id never returned by a successful upload, and `get_ics` fails
with 404 on every id never drawn from the id generator by any upload
attempt.  (The original claim fails only for the orphaned payload an
interrupted upload leaves behind: its id was generated but never
returned, yet its payload is retrievable.) -/
theorem C5_amended (fs : FS) (ret gen : List String) (h : Reach fs ret gen)
    (id : String) :
    (id ∉ ret → get_meta fs id = none) ∧ (id ∉ gen → get_ics fs id = none) := by
  have hi := reach_traceInv h id
  constructor
  · intro hr
    cases hm : get_meta fs id with
    | none => rfl
    | some v => exact absurd (hi.2.1 (by simp [hm])) hr
  · intro hg
    cases hm : get_ics fs id with
    | none => rfl
    | some v => exact absurd (hi.1 (by simp [hm])) hg

/-- Witness for C5 amended: after one successful upload under id
`"ab"`, lookups on the unrelated id `"zz"` fail. -/
theorem C5_amended_witness :
    get_meta [(("ab.json" : String), FileContent.json ⟨"ab", "Unnamed Student", "a.ics"⟩),
      ("ab.ics", FileContent.ics [7])] "zz" = none
    ∧ get_ics [(("ab.json" : String), FileContent.json ⟨"ab", "Unnamed Student", "a.ics"⟩),
      ("ab.ics", FileContent.ics [7])] "zz" = none := by
  have h := Reach.step (some ("a.ics", [7])) none "" "ab" true true Reach.init
  have e1 : (handle_upload [] (some ("a.ics", [7])) none "" "ab" true true).1
      = [("ab.json", FileContent.json ⟨"ab", "Unnamed Student", "a.ics"⟩),
        ("ab.ics", FileContent.ics [7])] := by decide
  have e2 : retAfter (handle_upload [] (some ("a.ics", [7])) none "" "ab" true true).2 []
      = ["ab"] := by decide
  have e3 : genAfter (handle_upload [] (some ("a.ics", [7])) none "" "ab" true true).2
      "ab" [] = ["ab"] := by decide
  rw [e1, e2, e3] at h
  exact ⟨(C5_amended _ _ _ h "zz").1 (by decide), (C5_amended _ _ _ h "zz").2 (by decide)⟩

/-- C6: the gateway's extension check is a case-insensitive test of the
filename's single trailing extension against the allowed set `{.ics}`;
an upload whose filename fails it is rejected with the 400
`Only .ics files allowed` error and the store is left untouched; a
`.txt` filename fails the check and a `.ics` filename passes it,
whatever the letter case. -/
theorem C6_extension_gate :
    (∀ fn : String, allowed_filename fn = true ↔ lowerAscii (pySplitextExt fn) = ".ics")
    ∧ (∀ (fs : FS) (fn : String) (b : List Nat) (nm : Option String) (base fid : String)
        (sk mk : Bool), fn ≠ "" → b.length ≤ MAX_BYTES → allowed_filename fn = false →
        handle_upload fs (some (fn, b)) nm base fid sk mk = (fs, .badExt))
    ∧ allowed_filename "alice.txt" = false
    ∧ allowed_filename "alice.ics" = true
    ∧ allowed_filename "ALICE.ICS" = true := by
  refine ⟨?_, ?_, by decide, by decide, by decide⟩
  · intro fn
    simp [allowed_filename, ALLOWED_EXT, List.contains]
  · intro fs fn b nm base fid sk mk hfn hsz hext
    rw [handle_upload_sizeOk fs _ nm base fid sk mk (Or.inr ⟨fn, rfl, hsz⟩)]
    exact upload_schedule_badExt fs b nm base fid sk mk hfn hext

/-- Witness for C6: a concrete `.txt` upload is rejected with the
store untouched. -/
theorem C6_extension_gate_witness :
    handle_upload [] (some ("alice.txt", [1])) (some "Alice") "" "ab" true true
      = ([], .badExt) :=
  C6_extension_gate.2.1 [] "alice.txt" [1] (some "Alice") "" "ab" true true
    (by decide) (by decide) (by decide)

/-- C7: for every valid upload, the stored metadata record's display
name equals the caller-supplied name with surrounding whitespace
trimmed, and is the fixed placeholder `"Unnamed Student"` exactly when
the trimmed name is empty — i.e. when the supplied name was empty,
whitespace-only, or absent. -/
theorem C7_display_name (fs : FS) (fn : String) (b : List Nat) (nm : Option String)
    (base fid : String) (hfn : fn ≠ "") (hext : allowed_filename fn = true)
    (hsz : b.length ≤ MAX_BYTES) :
    ∃ fs' dn link,
      handle_upload fs (some (fn, b)) nm base fid true true = (fs', .ok fid dn link)
      ∧ get_meta fs' fid = some (.json ⟨fid, dn, secure_filename fn⟩)
      ∧ dn = (if pyStrip (nm.getD "") = "" then "Unnamed Student"
              else pyStrip (nm.getD "")) := by
  refine ⟨_, dnOf nm, _, handle_upload_success fs b nm base fid hfn hext hsz, ?_, rfl⟩
  exact fsGet_fsPut_self _ _ _

/-- Witness for C7: a padded name is trimmed, and a whitespace-only
name falls back to the placeholder. -/
theorem C7_display_name_witness :
    (∃ fs' dn link,
      handle_upload [] (some ("a.ics", [1])) (some "  Alice ") "" "ab" true true
        = (fs', .ok "ab" dn link)
      ∧ get_meta fs' "ab" = some (.json ⟨"ab", dn, secure_filename "a.ics"⟩)
      ∧ dn = (if pyStrip ((some "  Alice ").getD "") = "" then "Unnamed Student"
              else pyStrip ((some "  Alice ").getD "")))
    ∧ (∃ fs' dn link,
      handle_upload [] (some ("a.ics", [1])) (some "   ") "" "cd" true true
        = (fs', .ok "cd" dn link)
      ∧ get_meta fs' "cd" = some (.json ⟨"cd", dn, secure_filename "a.ics"⟩)
      ∧ dn = (if pyStrip ((some "   ").getD "") = "" then "Unnamed Student"
              else pyStrip ((some "   ").getD ""))) :=
  ⟨C7_display_name [] "a.ics" [1] (some "  Alice ") "" "ab" (by decide) (by decide)
      (by decide),
   C7_display_name [] "a.ics" [1] (some "   ") "" "cd" (by decide) (by decide)
      (by decide)⟩

/-- C8: the payload's storage location is the key `id ++ ".ics"`,
derived solely from the generated id and never from the caller-supplied
filename: two valid uploads of the same bytes under the same generated
id that differ only in filename (and display name) leave the bytes
retrievable under that id, identical in both runs and equal to the
uploaded bytes. -/
theorem C8_filename_independent (fs : FS) (fn1 fn2 : String) (b : List Nat)
    (nm1 nm2 : Option String) (base fid : String)
    (h1 : fn1 ≠ "") (e1 : allowed_filename fn1 = true)
    (h2 : fn2 ≠ "") (e2 : allowed_filename fn2 = true)
    (hsz : b.length ≤ MAX_BYTES) :
    get_ics (handle_upload fs (some (fn1, b)) nm1 base fid true true).1 fid
      = some (.ics b)
    ∧ get_ics (handle_upload fs (some (fn2, b)) nm2 base fid true true).1 fid
      = get_ics (handle_upload fs (some (fn1, b)) nm1 base fid true true).1 fid := by
  have key : ∀ (fn : String) (nm : Option String), fn ≠ "" →
      allowed_filename fn = true →
      get_ics (handle_upload fs (some (fn, b)) nm base fid true true).1 fid
        = some (.ics b) := by
    intro fn nm hfn hext
    rw [handle_upload_success fs b nm base fid hfn hext hsz]
    unfold get_ics
    rw [fsGet_fsPut_other _ (fid ++ ".json") (fid ++ ".ics") _
      (ics_key_ne_json_key fid fid)]
    exact fsGet_fsPut_self _ _ _
  exact ⟨key fn1 nm1 h1 e1, (key fn2 nm2 h2 e2).trans (key fn1 nm1 h1 e1).symm⟩

/-- Witness for C8 at two concrete filenames for the same bytes. -/
theorem C8_filename_independent_witness :
    get_ics (handle_upload [] (some ("alice.ics", [3, 4])) (some "A") "" "ab"
      true true).1 "ab" = some (.ics [3, 4])
    ∧ get_ics (handle_upload [] (some ("bob.ics", [3, 4])) (some "B") "" "ab"
      true true).1 "ab"
      = get_ics (handle_upload [] (some ("alice.ics", [3, 4])) (some "A") "" "ab"
        true true).1 "ab" :=
  C8_filename_independent [] "alice.ics" "bob.ics" [3, 4] (some "A") (some "B") "" "ab"
    (by decide) (by decide) (by decide) (by decide) (by decide)

/-- C10: an upload whose filename is nothing but the allowed extension —
the bare name `".ics"` — is rejected with the 400 `Only .ics files
allowed` error: `os.path.splitext` treats the leading dot as part of
the hidden-file base name, so the extension it extracts is empty and
fails the allow-list test. -/
theorem C10_bare_extension_rejected :
    pySplitextExt ".ics" = ""
    ∧ allowed_filename ".ics" = false
    ∧ handle_upload [] (some (".ics", [66, 69])) (some "Alice") "http://h/" "ab12"
        true true = ([], .badExt) := by
  refine ⟨by decide, by decide, by decide⟩

/-- C3 is false as stated: `upload_schedule` never checks whether the
freshly generated id already names a stored artifact and never
regenerates.  Concretely, after an upload stored payload `[1]` under
the generated id `"aa"`, a second upload whose generated id is again
`"aa"` succeeds and silently clobbers: `get_ics "aa"` now returns the
second payload `[2]` instead of the first. -/
theorem C3_counterexample :
    get_ics (handle_upload [] (some ("a.ics", [1])) none "" "aa" true true).1 "aa"
      = some (.ics [1])
    ∧ (handle_upload (handle_upload [] (some ("a.ics", [1])) none "" "aa" true true).1
        (some ("b.ics", [2])) none "" "aa" true true).2
      = .ok "aa" "Unnamed Student" "/s/aa"
    ∧ get_ics (handle_upload
        (handle_upload [] (some ("a.ics", [1])) none "" "aa" true true).1
        (some ("b.ics", [2])) none "" "aa" true true).1 "aa"
      = some (.ics [2]) := by
  refine ⟨by decide, by decide, by decide⟩

/-- C3 amended: the store draws a fresh random id with no collision
check, so a colliding generated id silently overwrites the stored
artifact; whenever the two generated ids are distinct — the
statistically-certain case for `uuid4` — two uploads with identical
content yield two distinct ids, each independently retrievable with the
same bytes. -/
theorem C3_amended (fs : FS) (fn1 fn2 : String) (b : List Nat)
    (nm1 nm2 : Option String) (base id1 id2 : String) (hne : id1 ≠ id2)
    (h1 : fn1 ≠ "") (e1 : allowed_filename fn1 = true)
    (h2 : fn2 ≠ "") (e2 : allowed_filename fn2 = true)
    (hsz : b.length ≤ MAX_BYTES) :
    (handle_upload fs (some (fn1, b)) nm1 base id1 true true).2
      = .ok id1 (dnOf nm1) (rstripSlash base ++ "/s/" ++ id1)
    ∧ (handle_upload (handle_upload fs (some (fn1, b)) nm1 base id1 true true).1
        (some (fn2, b)) nm2 base id2 true true).2
      = .ok id2 (dnOf nm2) (rstripSlash base ++ "/s/" ++ id2)
    ∧ get_ics (handle_upload
        (handle_upload fs (some (fn1, b)) nm1 base id1 true true).1
        (some (fn2, b)) nm2 base id2 true true).1 id1 = some (.ics b)
    ∧ get_ics (handle_upload
        (handle_upload fs (some (fn1, b)) nm1 base id1 true true).1
        (some (fn2, b)) nm2 base id2 true true).1 id2 = some (.ics b) := by
  rw [handle_upload_success fs b nm1 base id1 h1 e1 hsz,
    handle_upload_success _ b nm2 base id2 h2 e2 hsz]
  refine ⟨rfl, rfl, ?_, ?_⟩
  · unfold get_ics
    rw [fsGet_fsPut_other _ (id2 ++ ".json") (id1 ++ ".ics") _
        (ics_key_ne_json_key id1 id2),
      fsGet_fsPut_other _ (id2 ++ ".ics") (id1 ++ ".ics") _
        (fun he => hne (ics_key_inj he)),
      fsGet_fsPut_other _ (id1 ++ ".json") (id1 ++ ".ics") _
        (ics_key_ne_json_key id1 id1)]
    exact fsGet_fsPut_self _ _ _
  · unfold get_ics
    rw [fsGet_fsPut_other _ (id2 ++ ".json") (id2 ++ ".ics") _
      (ics_key_ne_json_key id2 id2)]
    exact fsGet_fsPut_self _ _ _

/-- Witness for C3 amended at two concrete distinct ids. -/
theorem C3_amended_witness :
    (handle_upload [] (some ("a.ics", [5])) none "" "aa" true true).2
      = .ok "aa" (dnOf none) (rstripSlash "" ++ "/s/" ++ "aa")
    ∧ (handle_upload (handle_upload [] (some ("a.ics", [5])) none "" "aa" true true).1
        (some ("a.ics", [5])) none "" "bb" true true).2
      = .ok "bb" (dnOf none) (rstripSlash "" ++ "/s/" ++ "bb")
    ∧ get_ics (handle_upload
        (handle_upload [] (some ("a.ics", [5])) none "" "aa" true true).1
        (some ("a.ics", [5])) none "" "bb" true true).1 "aa" = some (.ics [5])
    ∧ get_ics (handle_upload
        (handle_upload [] (some ("a.ics", [5])) none "" "aa" true true).1
        (some ("a.ics", [5])) none "" "bb" true true).1 "bb" = some (.ics [5]) :=
  C3_amended [] "a.ics" "a.ics" [5] none none "" "aa" "bb" (by decide)
    (by decide) (by decide) (by decide) (by decide) (by decide)

/-- C4 is false as stated: the handler itself performs no size check at
all — only the framework's `MAX_CONTENT_LENGTH` gate does.  Called with
the framework gate bypassed, `upload_schedule` happily accepts a
payload one byte over the 2 MiB ceiling instead of rejecting it
defensively. -/
theorem C4_counterexample :
    MAX_BYTES < (List.replicate (MAX_BYTES + 1) 0).length
    ∧ (upload_schedule [] (some ("a.ics", List.replicate (MAX_BYTES + 1) 0)) none ""
        "ab" true true).2 = .ok "ab" "Unnamed Student" "/s/ab" := by
  exact ⟨by simp, rfl⟩

/-- C4 amended: the 2 MiB ceiling is enforced only by the framework's
`MAX_CONTENT_LENGTH` gate (modelling the request size as the payload
size): a valid upload of at most `MAX_BYTES` bytes — in particular
exactly `MAX_BYTES` — succeeds, and one of more than `MAX_BYTES` bytes
is rejected with 413 `RequestEntityTooLarge`; the handler body performs
no defensive size check of its own and accepts a payload of any size
when reached directly. -/
theorem C4_amended (fs : FS) (fn : String) (b : List Nat) (nm : Option String)
    (base fid : String) (hfn : fn ≠ "") (hext : allowed_filename fn = true) :
    (MAX_BYTES < b.length →
      handle_upload fs (some (fn, b)) nm base fid true true = (fs, .tooLarge))
    ∧ (b.length ≤ MAX_BYTES →
      (handle_upload fs (some (fn, b)) nm base fid true true).2
        = .ok fid (dnOf nm) (rstripSlash base ++ "/s/" ++ fid))
    ∧ (upload_schedule fs (some (fn, b)) nm base fid true true).2
        = .ok fid (dnOf nm) (rstripSlash base ++ "/s/" ++ fid) := by
  refine ⟨fun h => handle_upload_tooLarge fs nm base fid true true h,
    fun h => ?_, ?_⟩
  · rw [handle_upload_success fs b nm base fid hfn hext h]
  · rw [upload_schedule_success fs b nm base fid hfn hext]

/-- Witness for C4 amended: a payload of exactly the ceiling succeeds
and a payload one byte over is rejected with 413. -/
theorem C4_amended_witness :
    handle_upload [] (some ("a.ics", List.replicate (MAX_BYTES + 1) 0)) none "" "ab"
      true true = ([], .tooLarge)
    ∧ (handle_upload [] (some ("a.ics", List.replicate MAX_BYTES 0)) none "" "ab"
      true true).2 = .ok "ab" (dnOf none) (rstripSlash "" ++ "/s/" ++ "ab") :=
  ⟨(C4_amended [] "a.ics" (List.replicate (MAX_BYTES + 1) 0) none "" "ab"
      (by decide) (by decide)).1 (by simp),
   (C4_amended [] "a.ics" (List.replicate MAX_BYTES 0) none "" "ab"
      (by decide) (by decide)).2.1 (by simp)⟩

/-- C9 is false as stated: a failure of the metadata write is not
answered with the distinguishable `Failed to save` JSON error — the
`json.dump` call sits outside the `try/except`, so the exception
escapes the handler and the caller gets the framework's generic 500
(`unhandledError`), an indistinguishable failure. -/
theorem C9_counterexample :
    (handle_upload [] (some ("a.ics", [1])) none "" "ab" true false).2
      = .unhandledError
    ∧ UploadResult.unhandledError ≠ UploadResult.saveFailed := by
  refine ⟨by decide, by decide⟩

/-- C9 amended: on a valid upload, a payload-write failure is answered
with the distinguishable 500 `Failed to save` JSON error and no id and
no store change; a metadata-write failure instead escapes as an
unhandled exception that the framework turns into a generic 500, again
with no id; and an id is returned only when both writes succeeded. -/
theorem C9_amended (fs : FS) (fn : String) (b : List Nat) (nm : Option String)
    (base fid : String) (hfn : fn ≠ "") (hext : allowed_filename fn = true)
    (hsz : b.length ≤ MAX_BYTES) :
    (∀ mk, handle_upload fs (some (fn, b)) nm base fid false mk = (fs, .saveFailed))
    ∧ (handle_upload fs (some (fn, b)) nm base fid true false).2 = .unhandledError
    ∧ (∀ (sk mk : Bool) (fs' : FS) (rid dn link : String),
        handle_upload fs (some (fn, b)) nm base fid sk mk = (fs', .ok rid dn link) →
        sk = true ∧ mk = true) := by
  have hgate : ∀ sk mk : Bool, handle_upload fs (some (fn, b)) nm base fid sk mk
      = upload_schedule fs (some (fn, b)) nm base fid sk mk :=
    fun sk mk => handle_upload_sizeOk fs _ nm base fid sk mk (Or.inr ⟨fn, rfl, hsz⟩)
  refine ⟨fun mk => (hgate false mk).trans
      (upload_schedule_saveFailed fs b nm base fid mk hfn hext), ?_, ?_⟩
  · rw [hgate true false, upload_schedule_metaFailed fs b nm base fid hfn hext]
  · intro sk mk fs' rid dn link h
    cases sk with
    | false =>
      rw [hgate false mk, upload_schedule_saveFailed fs b nm base fid mk hfn hext] at h
      simpa using congrArg Prod.snd h
    | true =>
      cases mk with
      | false =>
        rw [hgate true false, upload_schedule_metaFailed fs b nm base fid hfn hext] at h
        simpa using congrArg Prod.snd h
      | true => exact ⟨rfl, rfl⟩

/-- Witness for C9 amended at a concrete upload. -/
theorem C9_amended_witness :
    handle_upload [] (some ("a.ics", [1])) none "" "ab" false true
      = ([], .saveFailed)
    ∧ (handle_upload [] (some ("a.ics", [1])) none "" "ab" true false).2
      = .unhandledError :=
  ⟨(C9_amended [] "a.ics" [1] none "" "ab" (by decide) (by decide) (by decide)).1 true,
   (C9_amended [] "a.ics" [1] none "" "ab" (by decide) (by decide) (by decide)).2.1⟩

end Altura
